import Mathlib

/-!
Shallow embedding of `src/preprocessing.py` (LawDataApi).

Page texts are modelled as `Text := List Char` (Python `str`).  The
string operations used by the source — `str.split("\n\n")`, `"\n".join`,
`str.lower`, `str.endswith`, `os.path.basename`, `os.path.splitext` —
are translated below with Python semantics.  Filesystem and environment
effects are modelled by explicit records (`Env`, `FS`, `WriteFS`);
Python exceptions become `Except PyExc`; the PDF files submitted to the
external parser are recorded in an access trace.
-/

namespace Preprocessing

/-- A Python string, modelled as its list of characters. -/
abbrev Text := List Char

/-- Python `str.lower()` (ASCII case fold suffices for the `.pdf` test). -/
def lowerText (t : Text) : Text := t.map Char.toLower

/-- Python `file.lower().endswith(".pdf")` from `pdf_file_load`. -/
def hasPdfExt (f : Text) : Bool := ".pdf".data.isSuffixOf (lowerText f)

/-- Python `os.path.join(folder, file)` in the cases this program meets
(relative entry name from `os.listdir`, folder without trailing slash). -/
def joinPath (a b : Text) : Text := a ++ ['/'] ++ b

/-- Python `os.path.basename`: the part after the last slash. -/
def basenameOf (p : Text) : Text :=
  (p.reverse.takeWhile (fun c => !(c == '/'))).reverse

/-- Python `os.path.splitext(name)[0]` for a name without a slash: cut at
the last dot, unless every character before that dot is itself a dot
(a leading-dots name such as `.pdf` has no extension). -/
def splitextRoot (name : Text) : Text :=
  match ((name.enum.filter (fun p => p.2 == '.')).map Prod.fst).getLast? with
  | none => name
  | some i => if (name.take i).any (fun c => !(c == '.')) then name.take i else name

/-- Python `os.path.splitext(os.path.basename(p))[0]` from `pdf_file_load`. -/
def stemOf (p : Text) : Text := splitextRoot (basenameOf p)

/-- Python `current_text.split("\n\n")`: split on non-overlapping
occurrences of two consecutive newlines, scanning left to right. -/
def splitNN : Text → List Text
  | [] => [[]]
  | [c] => [[c]]
  | c :: c2 :: rest =>
    if c = '\n' ∧ c2 = '\n' then
      [] :: splitNN rest
    else
      match splitNN (c2 :: rest) with
      | [] => [[c]]
      | h :: t => (c :: h) :: t

/-- Whether a text contains two consecutive newlines (`"\n\n" in t`). -/
def containsNN : Text → Bool
  | [] => false
  | [_] => false
  | c :: c2 :: rest => (c == '\n' && c2 == '\n') || containsNN (c2 :: rest)

/-- Python `"\n".join(lines)`. -/
def joinLinesN (lines : List Text) : Text := List.intercalate ['\n'] lines

/-- The claim's `strip(p)`: split on `"\n\n"`, drop the first element,
rejoin the rest with single newlines. -/
def stripFirstPara (t : Text) : Text := joinLinesN ((splitNN t).drop 1)

/-! ## Merger and per-page writer (`merge_documents_to_single_markdown`,
`save_documents_as_markdown`) -/

/-- The body of the per-page loop of `merge_documents_to_single_markdown`
before the trailing space: for a later, non-empty page, split on
`"\n\n"`, and when the split is non-empty, drop its first element and
rejoin with `"\n"`; otherwise the text is kept as is. -/
def merge_page_text (i : Nat) (t : Text) : Text :=
  if 0 < i ∧ t ≠ [] then
    let lines := splitNN t
    if 0 < lines.length then joinLinesN (lines.drop 1) else t
  else t

/-- One page's contribution to the merged file: the processed text plus
the single appended space (`current_text = current_text + " "`). -/
def pageContrib (i : Nat) (t : Text) : Text := merge_page_text i t ++ [' ']

/-- The accumulated `merged_content` string of
`merge_documents_to_single_markdown`. -/
def merged_content (documents : List Text) : Text :=
  ((documents.enum).map (fun p => pageContrib p.1 p.2)).flatten

/-- The filesystem state the two writer functions consult
(`os.path.exists`). -/
structure WriteFS where
  pathExists : Text → Bool

/-- The observable effect of `merge_documents_to_single_markdown`:
whether `os.makedirs` ran, the path written, and the content written. -/
structure MergeWrite where
  createdFolder : Bool
  path : Text
  content : Text
deriving DecidableEq

/-- `merge_documents_to_single_markdown(documents, output_folder,
filename="merged_document")`: create the output folder when absent,
then write the merged content to `output_folder/<filename>.md`. -/
def merge_documents_to_single_markdown (fs : WriteFS) (documents : List Text)
    (output_folder : Text) (filename : Text := "merged_document".data) : MergeWrite :=
  { createdFolder := !fs.pathExists output_folder
    path := joinPath output_folder (filename ++ ".md".data)
    content := merged_content documents }

/-- The f-string `f"document_{n}.md"`. -/
def docFilename (n : Nat) : Text := "document_".data ++ (toString n).data ++ ".md".data

/-- `save_documents_as_markdown(documents, output_folder)`: create the
folder when absent, then write page `i` (0-based) to
`document_<i+1>.md` verbatim.  Returned as (folder created?, ordered
list of (path, content) writes). -/
def save_documents_as_markdown (fs : WriteFS) (documents : List Text)
    (output_folder : Text) : Bool × List (Text × Text) :=
  (!fs.pathExists output_folder,
    (documents.enum).map (fun p => (joinPath output_folder (docFilename (p.1 + 1)), p.2)))

/-! ## Loader (`api_key_load`, `pdf_file_load`) -/

/-- The Python exceptions this program can raise or catch. -/
inductive PyExc
  | valueError
  | permissionError
  | other
deriving DecidableEq

/-- The process environment after `load_dotenv()`:
`os.getenv("LLAMA_CLOUD_API_KEY")`. -/
structure Env where
  llamaCloudApiKey : Option Text

/-- The filesystem and external-parser world `pdf_file_load` consults.
`parse` is `SimpleDirectoryReader(input_files=[f], ...).load_data()`, an
ordered list of page texts for one PDF path, or a raised exception.
`emptyPathNotExists` records the OS fact `os.path.exists("") == False`. -/
structure FS where
  pathExists : Text → Bool
  isDir : Text → Bool
  listdir : Text → Except PyExc (List Text)
  parse : Text → Except PyExc (List Text)
  emptyPathNotExists : pathExists [] = false

/-- `api_key_load()`: after `load_dotenv`, a missing or empty
`LLAMA_CLOUD_API_KEY` raises `ValueError`; the surrounding handler
re-raises any exception as `ValueError`. -/
def api_key_load (env : Env) : Except PyExc Text :=
  match env.llamaCloudApiKey with
  | none => .error .valueError
  | some k => if k = [] then .error .valueError else .ok k

/-- Python dict assignment `d[k] = v`: overwrite in place when the key
exists, else append at the end (insertion order preserved). -/
def dictInsert (k : Text) (v : List Text) (d : List (Text × List Text)) :
    List (Text × List Text) :=
  if d.any (fun p => p.1 == k) then
    d.map (fun p => if p.1 == k then (k, v) else p)
  else d ++ [(k, v)]

/-- The per-file loop of `pdf_file_load`: parse each PDF path in order
into `result_dict` (keyed by stem); an exception aborts the loop and
propagates, discarding the accumulated dict.  The second component is
the trace of PDF paths submitted to the parser. -/
def parse_loop (fs : FS) : List (Text × List Text) → List Text →
    Except PyExc (List (Text × List Text)) × List Text
  | acc, [] => (.ok acc, [])
  | acc, pdf :: rest =>
    match fs.parse pdf with
    | .error e => (.error e, [pdf])
    | .ok docs =>
      let r := parse_loop fs (dictInsert (stemOf pdf) docs acc) rest
      (r.1, pdf :: r.2)

/-- The `try:` block of `pdf_file_load`: load the API key, validate the
folder, filter `os.listdir` entries to `.pdf` files, and parse each. -/
def pdf_file_load_try (env : Env) (fs : FS) (folder_path : Text) :
    Except PyExc (List (Text × List Text)) × List Text :=
  match api_key_load env with
  | .error e => (.error e, [])
  | .ok _ =>
    if !fs.pathExists folder_path then (.ok [], [])
    else if !fs.isDir folder_path then (.ok [], [])
    else
      match fs.listdir folder_path with
      | .error e => (.error e, [])
      | .ok files =>
        let pdf_files := (files.filter (fun f => hasPdfExt f)).map (fun f => joinPath folder_path f)
        if pdf_files = [] then (.ok [], [])
        else parse_loop fs [] pdf_files

/-- `pdf_file_load(folder_path)`: the `try:` block with both `except`
handlers (`PermissionError` and `Exception`), each returning `{}`. -/
def pdf_file_load (env : Env) (fs : FS) (folder_path : Text) :
    Except PyExc (List (Text × List Text)) × List Text :=
  match pdf_file_load_try env fs folder_path with
  | (.error _, tr) => (.ok [], tr)
  | r => r

/-- Whether a call outcome is a raised (uncaught) exception. -/
def raisesExc (r : Except PyExc (List (Text × List Text)) × List Text) : Bool :=
  match r.1 with
  | .error _ => true
  | .ok _ => false

/-! ## Concrete worlds used to evaluate the theorems -/

/-- An environment with no `LLAMA_CLOUD_API_KEY`. -/
def envNoKey : Env := ⟨none⟩

/-- An environment with a non-empty API key. -/
def envKey : Env := ⟨some "secret".data⟩

/-- A world with one PDF in `data` and a parser that always succeeds. -/
def fsDemo : FS :=
  { pathExists := fun p => !p.isEmpty
    isDir := fun _ => true
    listdir := fun _ => .ok ["a.pdf".data]
    parse := fun _ => .ok [['x']]
    emptyPathNotExists := rfl }

/-- A world where nothing exists. -/
def fsBare : FS :=
  { pathExists := fun _ => false
    isDir := fun _ => false
    listdir := fun _ => .error .other
    parse := fun _ => .error .other
    emptyPathNotExists := rfl }

/-- A world with two PDFs in `data` where parsing the second raises. -/
def fsSecondFails : FS :=
  { pathExists := fun p => !p.isEmpty
    isDir := fun _ => true
    listdir := fun _ => .ok ["a.pdf".data, "b.pdf".data]
    parse := fun f => if f = "data/b.pdf".data then .error .other else .ok [['x']]
    emptyPathNotExists := rfl }

/-- A world with two PDFs in `data` whose stems collide (`a.pdf`,
`a.PDF`) and a parser that always succeeds. -/
def fsStemClash : FS :=
  { pathExists := fun p => !p.isEmpty
    isDir := fun _ => true
    listdir := fun _ => .ok ["a.pdf".data, "a.PDF".data]
    parse := fun _ => .ok [['x']]
    emptyPathNotExists := rfl }

/-- A world with two PDFs in `data` with distinct stems and a parser
that always succeeds. -/
def fsTwoPdfs : FS :=
  { pathExists := fun p => !p.isEmpty
    isDir := fun _ => true
    listdir := fun _ => .ok ["a.pdf".data, "b.PDF".data, "notes.txt".data]
    parse := fun _ => .ok [['x']]
    emptyPathNotExists := rfl }

/-! ## Lemmas about the split heuristic -/

theorem splitNN_ne_nil (t : Text) : splitNN t ≠ [] := by
  induction t using splitNN.induct with
  | case1 => simp [splitNN]
  | case2 c => simp [splitNN]
  | case3 c c2 rest h ih =>
    simp [splitNN, if_pos h]
  | case4 c c2 rest h hnil ih =>
    simp [splitNN, if_neg h, hnil]
  | case5 c c2 rest h hd tl hcons ih =>
    simp [splitNN, if_neg h, hcons]

theorem splitNN_of_not_containsNN (t : Text) (h : containsNN t = false) :
    splitNN t = [t] := by
  induction t using splitNN.induct with
  | case1 => simp [splitNN]
  | case2 c => simp [splitNN]
  | case3 c c2 rest hc ih =>
    exfalso
    simp [containsNN, hc.1, hc.2] at h
  | case4 c c2 rest hc hnil ih =>
    simp only [containsNN, Bool.or_eq_false_iff] at h
    have ht := ih h.2
    simp [splitNN, if_neg hc, ht]
  | case5 c c2 rest hc hd tl hcons ih =>
    simp only [containsNN, Bool.or_eq_false_iff] at h
    have ht := ih h.2
    simp [splitNN, if_neg hc, ht]

/-! ## Lemmas about the merged content -/

theorem merge_page_text_zero (t : Text) : merge_page_text 0 t = t := by
  simp [merge_page_text]

theorem merge_page_text_pos (i : Nat) (hi : 0 < i) (t : Text) (ht : t ≠ []) :
    merge_page_text i t = stripFirstPara t := by
  have hn : 0 < (splitNN t).length := List.length_pos.mpr (splitNN_ne_nil t)
  simp [merge_page_text, hi, ht, hn, stripFirstPara]

theorem pageContrib_indep (i j : Nat) (hi : 0 < i) (hj : 0 < j) (t : Text) :
    pageContrib i t = pageContrib j t := by
  rcases eq_or_ne t [] with rfl | ht
  · simp [pageContrib, merge_page_text]
  · simp [pageContrib, merge_page_text_pos _ hi _ ht, merge_page_text_pos _ hj _ ht]

theorem enumFrom_contrib_flatten (l : List Text) :
    ∀ n, 0 < n →
      ((List.enumFrom n l).map (fun p => pageContrib p.1 p.2)).flatten
        = (l.map (pageContrib 1)).flatten := by
  induction l with
  | nil => intro n _; simp
  | cons t l ih =>
    intro n hn
    simp only [List.enumFrom, List.map_cons, List.flatten_cons]
    rw [pageContrib_indep n 1 hn Nat.one_pos t, ih (n + 1) (Nat.succ_pos n)]

theorem merged_content_split (pre : List Text) (hpre : pre ≠ []) (t : Text)
    (post : List Text) :
    merged_content (pre ++ t :: post)
      = merged_content pre ++ pageContrib 1 t ++ (post.map (pageContrib 1)).flatten := by
  have hlen : 0 < pre.length := List.length_pos.mpr hpre
  simp only [merged_content, List.enum_append, List.map_append, List.flatten_append]
  rw [List.append_assoc]
  congr 1
  simp only [List.enumFrom, List.map_cons, List.flatten_cons]
  rw [pageContrib_indep pre.length 1 hlen Nat.one_pos t,
    enumFrom_contrib_flatten post (pre.length + 1) (Nat.succ_pos _)]

/-! ## Lemmas about the loader -/

theorem parse_loop_all_ok (fs : FS) (docsOf : Text → List Text) (l : List Text) :
    ∀ acc : List (Text × List Text),
      (∀ f ∈ l, fs.parse f = .ok (docsOf f)) →
      parse_loop fs acc l
        = (.ok (l.foldl (fun a f => dictInsert (stemOf f) (docsOf f) a) acc), l) := by
  induction l with
  | nil => intro acc _; simp [parse_loop]
  | cons pdf rest ih =>
    intro acc h
    have hp : fs.parse pdf = .ok (docsOf pdf) := h pdf (List.mem_cons_self _ _)
    simp only [parse_loop, hp]
    rw [ih _ (fun f hf => h f (List.mem_cons_of_mem _ hf))]
    simp [List.foldl_cons]

theorem parse_loop_trace_mem (fs : FS) (l : List Text) :
    ∀ (acc : List (Text × List Text)) (x : Text),
      x ∈ (parse_loop fs acc l).2 → x ∈ l := by
  induction l with
  | nil => intro acc x hx; simp [parse_loop] at hx
  | cons pdf rest ih =>
    intro acc x hx
    rcases hp : fs.parse pdf with e | docs
    · simp [parse_loop, hp] at hx
      simp [hx]
    · simp only [parse_loop, hp] at hx
      rcases List.mem_cons.mp hx with rfl | hx'
      · exact List.mem_cons_self _ _
      · exact List.mem_cons_of_mem _ (ih _ _ hx')

theorem dictInsert_fresh (k : Text) (v : List Text) (d : List (Text × List Text))
    (h : k ∉ d.map Prod.fst) :
    dictInsert k v d = d ++ [(k, v)] := by
  have hany : d.any (fun p => p.1 == k) = false := by
    rw [List.any_eq_false]
    intro p hp
    simp only [beq_iff_eq]
    intro he
    exact h (List.mem_map.mpr ⟨p, hp, he⟩)
  simp [dictInsert, hany]

theorem foldl_dictInsert_keys (docsOf : Text → List Text) (l : List Text) :
    ∀ acc : List (Text × List Text),
      (l.map stemOf).Nodup →
      (∀ f ∈ l, stemOf f ∉ acc.map Prod.fst) →
      (l.foldl (fun a f => dictInsert (stemOf f) (docsOf f) a) acc).map Prod.fst
        = acc.map Prod.fst ++ l.map stemOf := by
  induction l with
  | nil => intro acc _ _; simp
  | cons f rest ih =>
    intro acc hnd hnotin
    have hmap : (f :: rest).map stemOf = stemOf f :: rest.map stemOf := rfl
    rw [hmap] at hnd
    have hne : stemOf f ∉ rest.map stemOf := (List.nodup_cons.mp hnd).1
    have hnd' : (rest.map stemOf).Nodup := (List.nodup_cons.mp hnd).2
    have hf : stemOf f ∉ acc.map Prod.fst := hnotin f (List.mem_cons_self _ _)
    rw [List.foldl_cons, dictInsert_fresh _ _ _ hf,
      ih _ hnd' ?_]
    · simp
    · intro g hg
      simp only [List.map_append, List.mem_append, List.map_cons, List.map_nil]
      rintro (h1 | h2)
      · exact hnotin g (List.mem_cons_of_mem _ hg) h1
      · simp only [List.mem_singleton] at h2
        exact hne (h2 ▸ List.mem_map_of_mem stemOf hg)

theorem pdf_file_load_of_try_ok (env : Env) (fs : FS) (p : Text)
    (d : List (Text × List Text)) (tr : List Text)
    (h : pdf_file_load_try env fs p = (.ok d, tr)) :
    pdf_file_load env fs p = (.ok d, tr) := by
  unfold pdf_file_load
  rw [h]

theorem pdf_file_load_trace_eq (env : Env) (fs : FS) (p : Text) :
    (pdf_file_load env fs p).2 = (pdf_file_load_try env fs p).2 := by
  unfold pdf_file_load
  rcases htr : pdf_file_load_try env fs p with ⟨r, tr⟩
  rcases r with e | d <;> rfl

theorem pdf_file_load_try_hyps (env : Env) (fs : FS) (p k : Text) (files : List Text)
    (hk : api_key_load env = .ok k)
    (hex : fs.pathExists p = true)
    (hdir : fs.isDir p = true)
    (hls : fs.listdir p = .ok files) :
    pdf_file_load_try env fs p
      = (if (files.filter (fun f => hasPdfExt f)).map (joinPath p) = []
          then ((.ok [], []) : Except PyExc (List (Text × List Text)) × List Text)
          else parse_loop fs [] ((files.filter (fun f => hasPdfExt f)).map (joinPath p))) := by
  rcases hsplit : (files.filter (fun f => hasPdfExt f)).map (joinPath p) with _ | ⟨x, xs⟩ <;>
    simp [pdf_file_load_try, hk, hex, hdir, hls, hsplit]

/-! ## Claims about the merger and the per-page writer -/

/-- Claim C1: for a DocumentSet of three non-empty pages, the merged
string is page 0 verbatim, a space, page 1 with its first
double-newline-delimited paragraph dropped and the rest rejoined with
single newlines, a space, page 2 treated the same way, and a final
space — with no other separator. -/
theorem c1_merge_three_pages (fs : WriteFS) (o fn : Text) (p0 p1 p2 : Text)
    (h0 : p0 ≠ []) (h1 : p1 ≠ []) (h2 : p2 ≠ []) :
    (merge_documents_to_single_markdown fs [p0, p1, p2] o fn).content
      = p0 ++ [' '] ++ stripFirstPara p1 ++ [' '] ++ stripFirstPara p2 ++ [' '] := by
  show merged_content [p0, p1, p2] = _
  simp [merged_content, List.enum, List.enumFrom, pageContrib,
    merge_page_text_zero, merge_page_text_pos 1 Nat.one_pos _ h1,
    merge_page_text_pos 2 (by norm_num) _ h2, List.append_assoc]

/-- Evaluation of `c1_merge_three_pages` on a concrete three-page set. -/
theorem c1_merge_three_pages_witness :
    "A".data ≠ ([] : Text) ∧ "h\n\nB".data ≠ ([] : Text) ∧ "h\n\nC\n\nD".data ≠ ([] : Text) ∧
    (merge_documents_to_single_markdown ⟨fun _ => true⟩
        ["A".data, "h\n\nB".data, "h\n\nC\n\nD".data] "out".data "m".data).content
      = "A".data ++ [' '] ++ stripFirstPara "h\n\nB".data ++ [' ']
        ++ stripFirstPara "h\n\nC\n\nD".data ++ [' '] :=
  ⟨by decide, by decide, by decide,
    c1_merge_three_pages ⟨fun _ => true⟩ "out".data "m".data
      "A".data "h\n\nB".data "h\n\nC\n\nD".data (by decide) (by decide) (by decide)⟩

/-- Claim C6: a single-page DocumentSet is merged to exactly that page's
text followed by a single space, with no stripping. -/
theorem c6_single_page (fs : WriteFS) (o fn p0 : Text) :
    (merge_documents_to_single_markdown fs [p0] o fn).content = p0 ++ [' '] := by
  show merged_content [p0] = _
  simp [merged_content, List.enum, List.enumFrom, pageContrib, merge_page_text_zero]

/-- Claim C3: a page after the first whose text has no double newline,
or is empty, contributes only the appended space to the merged output
(its whole remaining content is dropped), and its contribution equals
the first-paragraph-removal transformation applied to it. -/
theorem c3_later_page_content_drop (fs : WriteFS) (o fn : Text) (pre : List Text)
    (t : Text) (post : List Text) (hpre : pre ≠ [])
    (ht : containsNN t = false ∨ t = []) :
    (merge_documents_to_single_markdown fs (pre ++ t :: post) o fn).content
      = (merge_documents_to_single_markdown fs pre o fn).content ++ [' ']
        ++ (post.map (pageContrib 1)).flatten
    ∧ pageContrib pre.length t = stripFirstPara t ++ [' '] := by
  have hstrip : stripFirstPara t = [] := by
    rcases ht with hnn | rfl
    · rw [stripFirstPara, splitNN_of_not_containsNN t hnn]
      rfl
    · rfl
  have hc1 : pageContrib 1 t = [' '] := by
    rcases eq_or_ne t [] with rfl | hne
    · simp [pageContrib, merge_page_text]
    · simp [pageContrib, merge_page_text_pos 1 Nat.one_pos t hne, hstrip]
  constructor
  · show merged_content (pre ++ t :: post) = merged_content pre ++ [' '] ++ _
    rw [merged_content_split pre hpre t post, hc1]
  · have hlen : 0 < pre.length := List.length_pos.mpr hpre
    rw [pageContrib_indep pre.length 1 hlen Nat.one_pos, hc1, hstrip]
    simp

/-- Evaluation of `c3_later_page_content_drop`: a second page with no
double newline loses all of its text. -/
theorem c3_later_page_content_drop_witness :
    (["head".data] : List Text) ≠ [] ∧
    (containsNN "one paragraph only".data = false ∨ "one paragraph only".data = ([] : Text)) ∧
    ((merge_documents_to_single_markdown ⟨fun _ => true⟩
        (["head".data] ++ "one paragraph only".data :: []) "out".data "m".data).content
      = (merge_documents_to_single_markdown ⟨fun _ => true⟩
          ["head".data] "out".data "m".data).content ++ [' ']
        ++ (([] : List Text).map (pageContrib 1)).flatten
    ∧ pageContrib (["head".data] : List Text).length "one paragraph only".data
        = stripFirstPara "one paragraph only".data ++ [' ']) :=
  ⟨by decide, Or.inl (by decide),
    c3_later_page_content_drop ⟨fun _ => true⟩ "out".data "m".data
      ["head".data] "one paragraph only".data [] (by decide) (Or.inl (by decide))⟩

/-- Claim C9: the per-page writer writes one file per page, named
`document_1.md` … `document_n.md` in order, each holding its page's
text verbatim. -/
theorem c9_save_pages (fs : WriteFS) (docs : List Text) (o : Text) :
    ((save_documents_as_markdown fs docs o).2).map Prod.fst
        = (List.range docs.length).map (fun i => joinPath o (docFilename (i + 1)))
    ∧ ((save_documents_as_markdown fs docs o).2).map Prod.snd = docs := by
  constructor
  · simp only [save_documents_as_markdown, List.map_map, ← List.enum_map_fst docs]
    rfl
  · simp only [save_documents_as_markdown, List.map_map]
    exact List.enum_map_snd docs

/-- Claim C10: merging the empty DocumentSet still reports folder
creation when the folder is absent and writes the empty string to
`<output_folder>/<filename>.md`. -/
theorem c10_empty_docset (fs : WriteFS) (o fn : Text) :
    merge_documents_to_single_markdown fs [] o fn
      = ⟨!fs.pathExists o, joinPath o (fn ++ ".md".data), []⟩ := rfl

/-! ## Claims about the loader -/

/-- Claim C2 as stated is false: with the credential absent,
`pdf_file_load` does not raise — `api_key_load`'s `ValueError` is caught
by the catch-all handler and an empty mapping is returned (with no file
submitted to the parser). -/
theorem c2_counterexample :
    envNoKey.llamaCloudApiKey = none
    ∧ raisesExc (pdf_file_load envNoKey fsDemo "data".data) = false
    ∧ (pdf_file_load envNoKey fsDemo "data".data).2 = [] := by
  refine ⟨rfl, rfl, rfl⟩

/-- Claim C2 amended: with the credential absent, `api_key_load` raises
a `ValueError`, which `pdf_file_load` catches, returning an empty
mapping to its caller before any access to the folder's files (the
result is independent of the filesystem). -/
theorem c2_missing_key_caught (env : Env) (fs : FS) (p : Text)
    (h : env.llamaCloudApiKey = none) :
    api_key_load env = .error .valueError
    ∧ pdf_file_load env fs p = (Except.ok [], [])
    ∧ ∀ fs' : FS, pdf_file_load env fs' p = pdf_file_load env fs p := by
  have hk : api_key_load env = .error .valueError := by simp [api_key_load, h]
  have hload : ∀ g : FS, pdf_file_load env g p = (Except.ok [], []) := by
    intro g
    simp [pdf_file_load, pdf_file_load_try, hk]
  exact ⟨hk, hload fs, fun fs' => (hload fs').trans (hload fs).symm⟩

/-- Evaluation of `c2_missing_key_caught` on a concrete world. -/
theorem c2_missing_key_caught_witness :
    envNoKey.llamaCloudApiKey = none
    ∧ (api_key_load envNoKey = .error .valueError
      ∧ pdf_file_load envNoKey fsDemo "data".data = (Except.ok [], [])
      ∧ ∀ fs' : FS, pdf_file_load envNoKey fs' "data".data
          = pdf_file_load envNoKey fsDemo "data".data) :=
  ⟨rfl, c2_missing_key_caught envNoKey fsDemo "data".data rfl⟩

/-- Claim C5: whenever any exception is raised inside the body of
`pdf_file_load` (api key load, folder listing, or any per-file parse,
even partway through the loop), the function returns an empty mapping:
no partial mapping survives. -/
theorem c5_exception_empty_mapping (env : Env) (fs : FS) (p : Text) (e : PyExc)
    (h : (pdf_file_load_try env fs p).1 = .error e) :
    (pdf_file_load env fs p).1 = Except.ok [] := by
  unfold pdf_file_load
  rcases htr : pdf_file_load_try env fs p with ⟨r, tr⟩
  rw [htr] at h
  simp only at h
  subst h
  rfl

/-- Evaluation of `c5_exception_empty_mapping`: the second of two PDFs
fails to parse after the first succeeded, and the whole mapping is
discarded. -/
theorem c5_exception_empty_mapping_witness :
    (pdf_file_load_try envKey fsSecondFails "data".data).1 = Except.error PyExc.other
    ∧ (pdf_file_load envKey fsSecondFails "data".data).1 = Except.ok [] :=
  ⟨rfl, c5_exception_empty_mapping envKey fsSecondFails "data".data PyExc.other rfl⟩

/-- Claim C7: for a folder path that does not exist (in particular the
empty path, which never exists), `pdf_file_load` returns an empty
mapping and raises nothing. -/
theorem c7_missing_folder (env : Env) (fs : FS) (p : Text)
    (h : fs.pathExists p = false ∨ p = []) :
    pdf_file_load env fs p = (Except.ok [], []) := by
  have hex : fs.pathExists p = false := by
    rcases h with h | rfl
    · exact h
    · exact fs.emptyPathNotExists
  rcases hk : api_key_load env with e | k
  · simp [pdf_file_load, pdf_file_load_try, hk]
  · simp [pdf_file_load, pdf_file_load_try, hk, hex]

/-- Evaluation of `c7_missing_folder` on a world without the folder. -/
theorem c7_missing_folder_witness :
    (fsBare.pathExists "missing".data = false ∨ "missing".data = ([] : Text))
    ∧ pdf_file_load envKey fsBare "missing".data = (Except.ok [], []) :=
  ⟨Or.inl rfl, c7_missing_folder envKey fsBare "missing".data (Or.inl rfl)⟩

/-- Claim C4 as stated is false: a folder holding the two PDF files
`a.pdf` and `a.PDF` (N = 2, key loaded, no exception anywhere) yields a
mapping with a single entry, because both stems are `a` and the second
assignment overwrites the first. -/
theorem c4_counterexample :
    fsStemClash.listdir "data".data = Except.ok ["a.pdf".data, "a.PDF".data]
    ∧ (["a.pdf".data, "a.PDF".data].filter (fun f => hasPdfExt f)).length = 2
    ∧ (pdf_file_load envKey fsStemClash "data".data).1
        = Except.ok [("a".data, [['x']])]
    ∧ [(("a".data : Text), [(['x'] : Text)])].length ≠ 2 :=
  ⟨rfl, by decide, rfl, by decide⟩

/-- Claim C4 amended: for a folder with N `.pdf` files whose stems are
pairwise distinct, when the key loads and no exception occurs, the
mapping has exactly N entries keyed (in order) by those stems. -/
theorem c4_distinct_stems_mapping (env : Env) (fs : FS) (p k : Text)
    (files : List Text) (docsOf : Text → List Text)
    (hk : api_key_load env = .ok k)
    (hex : fs.pathExists p = true)
    (hdir : fs.isDir p = true)
    (hls : fs.listdir p = .ok files)
    (hp : ∀ f ∈ (files.filter (fun f => hasPdfExt f)).map (joinPath p),
        fs.parse f = .ok (docsOf f))
    (hnd : (((files.filter (fun f => hasPdfExt f)).map (joinPath p)).map stemOf).Nodup) :
    ∃ d, (pdf_file_load env fs p).1 = Except.ok d
      ∧ d.map Prod.fst = ((files.filter (fun f => hasPdfExt f)).map (joinPath p)).map stemOf
      ∧ d.length = (files.filter (fun f => hasPdfExt f)).length := by
  have htry := pdf_file_load_try_hyps env fs p k files hk hex hdir hls
  by_cases hnil : (files.filter (fun f => hasPdfExt f)).map (joinPath p) = []
  · rw [if_pos hnil] at htry
    refine ⟨[], ?_, ?_, ?_⟩
    · rw [pdf_file_load_of_try_ok env fs p [] [] htry]
    · simp [hnil]
    · have : files.filter (fun f => hasPdfExt f) = [] := by
        simpa using hnil
      simp [this]
  · rw [if_neg hnil] at htry
    rw [parse_loop_all_ok fs docsOf _ [] hp] at htry
    refine ⟨List.foldl (fun a f => dictInsert (stemOf f) (docsOf f) a) []
      ((files.filter (fun f => hasPdfExt f)).map (joinPath p)), ?_, ?_, ?_⟩
    · rw [pdf_file_load_of_try_ok env fs p _ _ htry]
    · simpa using foldl_dictInsert_keys docsOf _ [] hnd (by simp)
    · have hkeys := foldl_dictInsert_keys docsOf
        ((files.filter (fun f => hasPdfExt f)).map (joinPath p)) [] hnd (by simp)
    -- the dict's length equals the length of its key list, which is the stem list
      have hlen := congrArg List.length hkeys
      simpa using hlen

/-- Evaluation of `c4_distinct_stems_mapping` on a folder with two PDFs
of distinct stems plus one non-PDF entry. -/
theorem c4_distinct_stems_mapping_witness :
    ∃ d, (pdf_file_load envKey fsTwoPdfs "data".data).1 = Except.ok d
      ∧ d.map Prod.fst
          = (((["a.pdf".data, "b.PDF".data, "notes.txt".data].filter
              (fun f => hasPdfExt f)).map (joinPath "data".data)).map stemOf)
      ∧ d.length = (["a.pdf".data, "b.PDF".data, "notes.txt".data].filter
          (fun f => hasPdfExt f)).length :=
  c4_distinct_stems_mapping envKey fsTwoPdfs "data".data "secret".data
    ["a.pdf".data, "b.PDF".data, "notes.txt".data] (fun _ => [['x']])
    rfl rfl rfl rfl (fun f _ => rfl) (by decide)

/-- Claim C8: every path submitted to the parser comes from a directory
entry whose lowercased name ends in `.pdf`, and when every parse
succeeds, the submitted paths are exactly the `.pdf`-filtered entries in
order. -/
theorem c8_pdf_selection (env : Env) (fs : FS) (p k : Text) (files : List Text)
    (hk : api_key_load env = .ok k)
    (hex : fs.pathExists p = true)
    (hdir : fs.isDir p = true)
    (hls : fs.listdir p = .ok files) :
    (∀ x ∈ (pdf_file_load env fs p).2,
        ∃ f, f ∈ files ∧ hasPdfExt f = true ∧ x = joinPath p f)
    ∧ ((∀ f, ∃ d, fs.parse f = Except.ok d) →
        (pdf_file_load env fs p).2
          = (files.filter (fun f => hasPdfExt f)).map (joinPath p)) := by
  have htr := pdf_file_load_trace_eq env fs p
  have htry := pdf_file_load_try_hyps env fs p k files hk hex hdir hls
  constructor
  · intro x hx
    rw [htr, htry] at hx
    by_cases hnil : (files.filter (fun f => hasPdfExt f)).map (joinPath p) = []
    · rw [if_pos hnil] at hx
      simp at hx
    · rw [if_neg hnil] at hx
      have hmem := parse_loop_trace_mem fs _ [] x hx
      rcases List.mem_map.mp hmem with ⟨f, hf, rfl⟩
      rcases List.mem_filter.mp hf with ⟨hfl, hpdf⟩
      exact ⟨f, hfl, hpdf, rfl⟩
  · intro hpar
    choose docsOf hd using hpar
    rw [htr, htry]
    by_cases hnil : (files.filter (fun f => hasPdfExt f)).map (joinPath p) = []
    · rw [if_pos hnil, hnil]
    · rw [if_neg hnil, parse_loop_all_ok fs docsOf _ [] (fun f _ => hd f)]

/-- Evaluation of `c8_pdf_selection` on a folder with two PDFs and one
text file. -/
theorem c8_pdf_selection_witness :
    (∀ x ∈ (pdf_file_load envKey fsTwoPdfs "data".data).2,
        ∃ f, f ∈ ["a.pdf".data, "b.PDF".data, "notes.txt".data]
          ∧ hasPdfExt f = true ∧ x = joinPath "data".data f)
    ∧ ((∀ f, ∃ d, fsTwoPdfs.parse f = Except.ok d) →
        (pdf_file_load envKey fsTwoPdfs "data".data).2
          = ((["a.pdf".data, "b.PDF".data, "notes.txt".data].filter
              (fun f => hasPdfExt f)).map (joinPath "data".data))) :=
  c8_pdf_selection envKey fsTwoPdfs "data".data "secret".data
    ["a.pdf".data, "b.PDF".data, "notes.txt".data] rfl rfl rfl rfl
